import Mathlib

/-!
Shallow embedding of mucher.py, the question-bank parser and variant
description builder of ExamGenerator and the response scorer of ExamGrader.
Spreadsheet cells are modelled by `Cell`: a textual cell, a numeric cell
(integers stand in for the numeric values), or a missing cell (NaN).
-/

namespace Mucher

/-- A spreadsheet cell as seen through pandas: text, a number, or NaN. -/
inductive Cell where
  | str (s : String)
  | num (n : Int)
  | nan
deriving DecidableEq

/-- Python str() applied to a cell value. -/
def Cell.toStr : Cell → String
  | .str s => s
  | .num n => toString n
  | .nan => "nan"

/-- pd.isna on a cell. -/
def Cell.isna : Cell → Bool
  | .nan => true
  | _ => false

/-- isinstance(value, str). -/
def Cell.isStr : Cell → Bool
  | .str _ => true
  | _ => false

/-- Generation settings of ExamConfig that the generator core reads. -/
structure ExamConfig where
  seed : Int
  serialStart : Int
  usagePerCategory : Int
  numTests : Int
deriving DecidableEq

def QUESTIONS_PER_BLOCK : Nat := 5

def RESPONSES_PER_QUESTION : Nat := 4

/-- A question block: the prompt and the collected responses. -/
structure QFile where
  prompt : String
  responses : List String
deriving DecidableEq

/-- The response collection loop of ExamGenerator._write_question_file:
for i in 1..4, keep cell (start_idx + i) when the row exists, is non-empty
and its first cell is not NaN. -/
def collectResponses (elements : List (List Cell)) (startIdx : Nat) : List String :=
  ([1, 2, 3, 4] : List Nat).filterMap (fun i =>
    match elements[startIdx + i]? with
    | none => none
    | some [] => none
    | some (c :: _) => if c.isna then none else some (Cell.toStr c).trim)

/-- ExamGenerator._write_question_file: the block that gets written, or none
when the block is dropped (start index out of range, or prompt row empty, or
the prompt cell is NaN). A block short of 4 responses is still emitted. -/
def writeQuestionFile (elements : List (List Cell)) (startIdx : Nat) : Option QFile :=
  if elements.length ≤ startIdx then none
  else
    match elements[startIdx]? with
    | none => none
    | some [] => none
    | some (c :: _) =>
      if c.isna then none
      else some ⟨(Cell.toStr c).trim, collectResponses elements startIdx⟩

/-- The file name used for a block of a sheet, with no extension. -/
def questionFileName (sheet : String) (index : Nat) : String :=
  sheet ++ "-" ++ toString index

/-- Python sep.join(xs). -/
def joinSep (sep : String) : List String → String
  | [] => ""
  | [x] => x
  | x :: xs => x ++ sep ++ joinSep sep xs

/-- The serialized content of one question file, from
ExamGenerator._write_question_file. -/
def serializeQuestion (f : QFile) : String :=
  f.prompt ++ "\n.\n" ++ joinSep "\n.\n" f.responses ++ "\n.\n"

/-- Block i of a sheet uses rows i*5 .. i*5+4, row i*5 as prompt. -/
def blockAt (elements : List (List Cell)) (i : Nat) : Option (Nat × QFile) :=
  (writeQuestionFile elements (i * QUESTIONS_PER_BLOCK)).map (fun f => (i, f))

/-- Per-sheet branching of ExamGenerator._parse_questions_from_excel:
an empty sheet is skipped; exactly 5 rows give one block at index 0;
otherwise floor(rowCount/5) blocks are attempted and remainder rows drop. -/
def parseSheet (elements : List (List Cell)) : List (Nat × QFile) :=
  if elements.length = 0 then []
  else if elements.length = QUESTIONS_PER_BLOCK then (blockAt elements 0).toList
  else (List.range (elements.length / QUESTIONS_PER_BLOCK)).filterMap (blockAt elements)

/-- ExamGenerator._parse_questions_from_excel over the whole workbook: errors
when there are no sheets, otherwise returns the full sheet-name list and the
question files written as a side effect. -/
def parseQuestionsFromExcel (bank : List (String × List (List Cell))) :
    Except String (List String × List (String × QFile)) :=
  if bank.isEmpty then .error "Excel file has no sheets"
  else .ok (bank.map Prod.fst,
    bank.flatMap (fun sn => (parseSheet sn.2).map (fun p => (questionFileName sn.1 p.1, p.2))))

/-- One usage directive of ExamGenerator._generate_much_description. -/
def usageLine (cfg : ExamConfig) (sheet : String) : String :=
  "use " ++ toString cfg.usagePerCategory ++ " from \"" ++ sheet ++ "-*\";"

/-- The usages list of ExamGenerator._generate_much_description, one line per
sheet in the enumeration order of the sheets. -/
def usageLines (cfg : ExamConfig) (sheets : List String) : List String :=
  sheets.map (usageLine cfg)

/-- The description f-string of ExamGenerator._generate_much_description.
The triple-quoted literal opens directly with a newline. -/
def generateMuchDescription (cfg : ExamConfig) (sheets : List String) : String :=
  "\n" ++ "directory \".\";" ++ "\n" ++ "seed " ++ toString cfg.seed ++ ";" ++ "\n"
    ++ "serial " ++ toString cfg.serialStart ++ ";" ++ "\n"
    ++ joinSep "\n" (usageLines cfg sheets) ++ "\n"
    ++ "create " ++ toString cfg.numTests ++ ";"

/-- Modelled from the spec words (description script grammar): the script
with no leading blank line, for comparison with generateMuchDescription. -/
def specDescriptionScript (cfg : ExamConfig) (sheets : List String) : String :=
  "directory \".\";" ++ "\n" ++ "seed " ++ toString cfg.seed ++ ";" ++ "\n"
    ++ "serial " ++ toString cfg.serialStart ++ ";" ++ "\n"
    ++ joinSep "\n" (usageLines cfg sheets) ++ "\n"
    ++ "create " ++ toString cfg.numTests ++ ";"

/-- The three point values of the grading configuration. -/
structure GradingPolicy where
  pointsCorrect : Int
  pointsMissing : Int
  pointsIncorrect : Int
deriving DecidableEq

/-- Per-category counters of the report dict. -/
structure Tally where
  corrette : Nat
  nonDate : Nat
  errate : Nat
deriving DecidableEq

def Tally.zero : Tally := ⟨0, 0, 0⟩

/-- Which counter a question touches. -/
inductive Kind where
  | corrette
  | nonDate
  | errate
deriving DecidableEq

/-- Increment one counter of a tally. -/
def bump (t : Tally) : Kind → Tally
  | .corrette => { t with corrette := t.corrette + 1 }
  | .nonDate => { t with nonDate := t.nonDate + 1 }
  | .errate => { t with errate := t.errate + 1 }

/-- The report dict of ExamGrader, an insertion-ordered association list of
category to tally with unique keys. -/
abbrev Report := List (String × Tally)

/-- report[category][kind] += 1 with default zero initialization of a new
category, which a dict appends in insertion order. -/
def addTally (rep : Report) (c : String) (k : Kind) : Report :=
  match rep with
  | [] => [(c, bump Tally.zero k)]
  | (c0, t) :: rest =>
    if c0 = c then (c0, bump t k) :: rest else (c0, t) :: addTally rest c k

/-- Lookup of a category tally, defaulting to the zero tally. -/
def lookupTallyD (rep : Report) (c : String) : Tally :=
  match rep with
  | [] => Tally.zero
  | (c0, t) :: rest => if c0 = c then t else lookupTallyD rest c

/-- Category key of a question label in ExamGrader._calculate_student_score:
str(question) with the trailing 2 characters stripped when it has at least 2
characters, otherwise the label itself. -/
def categoryKey (q : Cell) : String :=
  let qs := Cell.toStr q
  if 2 ≤ qs.length then qs.dropRight 2 else qs

/-- One iteration of the scoring loop of
ExamGrader._calculate_student_score. -/
def scoreQuestion (pol : GradingPolicy) (correct given : Char) (q : Cell)
    (acc : Int × Report) : Int × Report :=
  let category := categoryKey q
  if given = '-' then (acc.1 + pol.pointsMissing, addTally acc.2 category .nonDate)
  else if correct = given then (acc.1 + pol.pointsCorrect, addTally acc.2 category .corrette)
  else (acc.1 + pol.pointsIncorrect, addTally acc.2 category .errate)

/-- The loop over zip(correct_answers, given_answers, questions), which stops
at the shortest of the three sequences. -/
def scoreFold (pol : GradingPolicy) :
    List Char → List Char → List Cell → Int × Report → Int × Report
  | c :: cs, g :: gs, q :: qs, acc => scoreFold pol cs gs qs (scoreQuestion pol c g q acc)
  | _, _, _, acc => acc

/-- ExamGrader._calculate_student_score. zip raises TypeError when
correct_answers is not iterable, that is not textual in this table. -/
def calculateStudentScore (pol : GradingPolicy) (correctAnswers : Cell)
    (givenAnswers : String) (questions : List Cell) (rep : Report) :
    Except String (Int × Report) :=
  match correctAnswers with
  | .str cs => .ok (scoreFold pol cs.data givenAnswers.data questions (0, rep))
  | _ => .error "TypeError: zip argument must support iteration"

/-- Python row[i] for a non-negative index; callers guard the range. -/
def rowGet (r : List Cell) (i : Nat) : Cell := r.getD i Cell.nan

/-- The slice row[3:-3] holding the per-question labels. -/
def questionsOf (r : List Cell) : List Cell := (r.take (r.length - 3)).drop 3

/-- One entry of the scores column: blank or an integer score. -/
inductive ScoreCell where
  | blank
  | score (n : Int)
deriving DecidableEq

def MIN_COLUMNS_REQUIRED : Nat := 6

/-- The row loop of ExamGrader.grade: a short row or a row whose given
answers field is not textual gets a blank score and touches no tally; an
uncaught TypeError aborts the whole batch. -/
def gradeRows (pol : GradingPolicy) :
    List (List Cell) → Report → Except String (List ScoreCell × Report)
  | [], rep => .ok ([], rep)
  | r :: rs, rep =>
    if r.length < MIN_COLUMNS_REQUIRED then
      (gradeRows pol rs rep).map (fun p => (ScoreCell.blank :: p.1, p.2))
    else
      match rowGet r (r.length - 2) with
      | Cell.str g =>
        match calculateStudentScore pol (rowGet r (r.length - 3)) g (questionsOf r) rep with
        | .ok sr => (gradeRows pol rs sr.2).map (fun p => (ScoreCell.score sr.1 :: p.1, p.2))
        | .error e => .error e
      | _ => (gradeRows pol rs rep).map (fun p => (ScoreCell.blank :: p.1, p.2))

/-- ExamGrader.grade: an empty table raises ValueError, otherwise the rows
are folded starting from an empty report. -/
def grade (pol : GradingPolicy) (rows : List (List Cell)) :
    Except String (List ScoreCell × Report) :=
  if rows.isEmpty then .error "ValueError: Results file is empty"
  else gradeRows pol rows []

/-! Spec-level helper notions used to state the claims. -/

/-- Positions answered with the dash among paired (correct, given) answers. -/
def countMissingP (l : List (Char × Char)) : Nat :=
  (l.filter (fun p => decide (p.2 = '-'))).length

/-- Answered positions where the given answer matches the correct one. -/
def countCorrectP (l : List (Char × Char)) : Nat :=
  (l.filter (fun p => decide (p.2 ≠ '-' ∧ p.1 = p.2))).length

/-- Answered positions where the given answer differs from the correct one. -/
def countIncorrectP (l : List (Char × Char)) : Nat :=
  (l.filter (fun p => decide (p.2 ≠ '-' ∧ p.1 ≠ p.2))).length

/-- The positional triples (correct, given, label) the scoring loop walks,
truncated at the shortest input like zip. -/
def triplesOf : List Char → List Char → List Cell → List (Char × Char × Cell)
  | c :: cs, g :: gs, q :: qs => (c, g, q) :: triplesOf cs gs qs
  | _, _, _ => []

/-- Questions of one category answered correctly. -/
def catCountCorrect (l : List (Char × Char × Cell)) (cat : String) : Nat :=
  (l.filter (fun t => decide (categoryKey t.2.2 = cat ∧ t.2.1 ≠ '-' ∧ t.1 = t.2.1))).length

/-- Questions of one category left unanswered. -/
def catCountMissing (l : List (Char × Char × Cell)) (cat : String) : Nat :=
  (l.filter (fun t => decide (categoryKey t.2.2 = cat ∧ t.2.1 = '-'))).length

/-- Questions of one category answered incorrectly. -/
def catCountIncorrect (l : List (Char × Char × Cell)) (cat : String) : Nat :=
  (l.filter (fun t => decide (categoryKey t.2.2 = cat ∧ t.2.1 ≠ '-' ∧ t.1 ≠ t.2.1))).length

/-- The counter one question touches, as decided by the scoring branches. -/
def questionKind (correct given : Char) : Kind :=
  if given = '-' then .nonDate else if correct = given then .corrette else .errate

/-- The points one question adds, per counter kind. -/
def pointsFor (pol : GradingPolicy) : Kind → Int
  | .corrette => pol.pointsCorrect
  | .nonDate => pol.pointsMissing
  | .errate => pol.pointsIncorrect

/-- Componentwise sum of tallies. -/
def tallyAdd (a b : Tally) : Tally :=
  ⟨a.corrette + b.corrette, a.nonDate + b.nonDate, a.errate + b.errate⟩

/-- The tally contribution of one zipped row to one category. -/
def contribTriple : List Char → List Char → List Cell → String → Tally
  | c :: cs, g :: gs, q :: qs, cat =>
    let rest := contribTriple cs gs qs cat
    if categoryKey q = cat then bump rest (questionKind c g) else rest
  | _, _, _, _ => Tally.zero

/-- The number of zipped triples the scoring loop runs through. -/
def triplesLen : List Char → List Char → List Cell → Nat
  | _ :: cs, _ :: gs, _ :: qs => triplesLen cs gs qs + 1
  | _, _, _ => 0

/-- The tally contribution of one results row to one category: zero for a
row that is degraded to a blank score. -/
def rowContrib (r : List Cell) (cat : String) : Tally :=
  if r.length < MIN_COLUMNS_REQUIRED then Tally.zero
  else
    match rowGet r (r.length - 2) with
    | Cell.str g =>
      match rowGet r (r.length - 3) with
      | Cell.str c => contribTriple c.data g.data (questionsOf r) cat
      | _ => Tally.zero
    | _ => Tally.zero

/-- The tally contribution of a batch of rows to one category. -/
def batchContrib : List (List Cell) → String → Tally
  | [], _ => Tally.zero
  | r :: rs, cat => tallyAdd (rowContrib r cat) (batchContrib rs cat)

/-- A row of the shape that raises inside the scorer: at least 6 columns, a
textual given answers field, and a non-textual correct answers field. -/
def rowAborts (r : List Cell) : Bool :=
  decide (MIN_COLUMNS_REQUIRED ≤ r.length)
    && (rowGet r (r.length - 2)).isStr
    && !(rowGet r (r.length - 3)).isStr

/-- The scores-column entry one row receives: blank for a guarded-malformed
row, the computed score for a graded one (the score component does not
depend on the accumulated report). -/
def rowScoreCell (pol : GradingPolicy) (r : List Cell) : ScoreCell :=
  if r.length < MIN_COLUMNS_REQUIRED then ScoreCell.blank
  else
    match rowGet r (r.length - 2) with
    | Cell.str g =>
      match rowGet r (r.length - 3) with
      | Cell.str c =>
        ScoreCell.score ((scoreFold pol c.data g.data (questionsOf r) (0, [])).1)
      | _ => ScoreCell.blank
    | _ => ScoreCell.blank

/-- Total number of increments recorded in a report. -/
def reportTotal (rep : Report) : Nat :=
  (rep.map (fun p => p.2.corrette + p.2.nonDate + p.2.errate)).sum

/-- Modelled from the spec words: the category key is the label with its
trailing 2 characters stripped, a shorter label is used verbatim. -/
def specCategoryKey (lbl : String) : String :=
  if lbl.length < 2 then lbl else lbl.dropRight 2

/-- The prompt cell of the row at idx is present: the row exists, is
non-empty, and its first cell is not NaN. -/
def promptOk (elements : List (List Cell)) (idx : Nat) : Bool :=
  match elements[idx]? with
  | none => false
  | some [] => false
  | some (c :: _) => !c.isna

/-! Basic tally algebra. -/

theorem tallyAdd_zero (t : Tally) : tallyAdd t Tally.zero = t := by
  cases t; simp [tallyAdd, Tally.zero]

theorem zero_tallyAdd (t : Tally) : tallyAdd Tally.zero t = t := by
  cases t; simp [tallyAdd, Tally.zero]

theorem tallyAdd_assoc (a b c : Tally) :
    tallyAdd (tallyAdd a b) c = tallyAdd a (tallyAdd b c) := by
  cases a; cases b; cases c
  simp [tallyAdd, Nat.add_assoc]

theorem tallyAdd_bump_left (a b : Tally) (k : Kind) :
    tallyAdd (bump a k) b = tallyAdd a (bump b k) := by
  cases a; cases b; cases k <;> simp [tallyAdd, bump] <;> omega

theorem bump_tallyAdd (a b : Tally) (k : Kind) :
    bump (tallyAdd a b) k = tallyAdd a (bump b k) := by
  cases a; cases b; cases k <;> simp [tallyAdd, bump] <;> omega

/-- The branch structure of one scoring step, repackaged through
questionKind and pointsFor. -/
theorem scoreQuestion_eq (pol : GradingPolicy) (c g : Char) (q : Cell)
    (acc : Int × Report) :
    scoreQuestion pol c g q acc =
      (acc.1 + pointsFor pol (questionKind c g),
       addTally acc.2 (categoryKey q) (questionKind c g)) := by
  by_cases h1 : g = '-'
  · simp [scoreQuestion, questionKind, pointsFor, h1]
  · by_cases h2 : c = g
    · simp [scoreQuestion, questionKind, pointsFor, h1, h2]
    · simp [scoreQuestion, questionKind, pointsFor, h1, h2]

/-- Lookup after a single dict increment. -/
theorem lookupTallyD_addTally (rep : Report) (c c0 : String) (k : Kind) :
    lookupTallyD (addTally rep c k) c0 =
      if c = c0 then bump (lookupTallyD rep c0) k else lookupTallyD rep c0 := by
  induction rep with
  | nil =>
    by_cases h : c = c0 <;> simp [addTally, lookupTallyD, h, Tally.zero]
  | cons hd tl ih =>
    obtain ⟨c1, t⟩ := hd
    by_cases h1 : c1 = c
    · subst h1
      by_cases h2 : c1 = c0 <;> simp [addTally, lookupTallyD, h2]
    · by_cases h2 : c1 = c0
      · subst h2
        have hcc : ¬ c = c1 := fun h => h1 h.symm
        simp [addTally, lookupTallyD, h1, hcc]
      · simp [addTally, lookupTallyD, h1, h2, ih]

/-- Lookup after one zipped row is scored: the accumulated report grows by
exactly the row contribution at each category. -/
theorem lookupTallyD_scoreFold (pol : GradingPolicy) :
    ∀ (cs gs : List Char) (qs : List Cell) (a : Int) (rep : Report) (cat : String),
      lookupTallyD ((scoreFold pol cs gs qs (a, rep)).2) cat =
        tallyAdd (lookupTallyD rep cat) (contribTriple cs gs qs cat)
  | [], gs, qs, a, rep, cat => by
    cases gs <;> cases qs <;> simp [scoreFold, contribTriple, tallyAdd_zero]
  | c :: cs, [], qs, a, rep, cat => by
    cases qs <;> simp [scoreFold, contribTriple, tallyAdd_zero]
  | c :: cs, g :: gs, [], a, rep, cat => by
    simp [scoreFold, contribTriple, tallyAdd_zero]
  | c :: cs, g :: gs, q :: qs, a, rep, cat => by
    rw [scoreFold, scoreQuestion_eq]
    rw [lookupTallyD_scoreFold pol cs gs qs _ _ cat]
    rw [lookupTallyD_addTally]
    show _ = tallyAdd (lookupTallyD rep cat)
      (if categoryKey q = cat then bump (contribTriple cs gs qs cat) (questionKind c g)
       else contribTriple cs gs qs cat)
    by_cases h : categoryKey q = cat
    · simp only [h, if_pos rfl, if_true]
      rw [tallyAdd_bump_left]
    · simp [h]

theorem countMissingP_cons (c g : Char) (l : List (Char × Char)) :
    countMissingP ((c, g) :: l) = countMissingP l + if g = '-' then 1 else 0 := by
  by_cases h : g = '-' <;> simp [countMissingP, List.filter_cons, h]

theorem countCorrectP_cons (c g : Char) (l : List (Char × Char)) :
    countCorrectP ((c, g) :: l) =
      countCorrectP l + if g ≠ '-' ∧ c = g then 1 else 0 := by
  by_cases h : g ≠ '-' ∧ c = g <;> simp [countCorrectP, List.filter_cons, h]

theorem countIncorrectP_cons (c g : Char) (l : List (Char × Char)) :
    countIncorrectP ((c, g) :: l) =
      countIncorrectP l + if g ≠ '-' ∧ c ≠ g then 1 else 0 := by
  by_cases h : g ≠ '-' ∧ c ≠ g <;> simp [countIncorrectP, List.filter_cons, h]

/-- The three counts partition the zipped positions. -/
theorem countsP_sum (l : List (Char × Char)) :
    countCorrectP l + countMissingP l + countIncorrectP l = l.length := by
  induction l with
  | nil => simp [countCorrectP, countMissingP, countIncorrectP]
  | cons p l ih =>
    obtain ⟨c, g⟩ := p
    rw [countCorrectP_cons, countMissingP_cons, countIncorrectP_cons]
    by_cases hg : g = '-'
    · simp only [hg]
      simp
      omega
    · by_cases hc : c = g
      · simp [hg, hc]
        omega
      · simp [hg, hc]
        omega

/-- The accumulated score after one zipped row equals the linear combination
of the point values with the three counts. -/
theorem scoreFold_score (pol : GradingPolicy) :
    ∀ (cs gs : List Char) (qs : List Cell) (a : Int) (rep : Report),
      cs.length = gs.length → qs.length = gs.length →
      (scoreFold pol cs gs qs (a, rep)).1 =
        a + pol.pointsCorrect * countCorrectP (cs.zip gs)
          + pol.pointsMissing * countMissingP (cs.zip gs)
          + pol.pointsIncorrect * countIncorrectP (cs.zip gs)
  | [], [], [], a, rep, _, _ => by
    simp [scoreFold, countCorrectP, countMissingP, countIncorrectP]
  | [], g :: gs, _, a, rep, h1, _ => by simp at h1
  | c :: cs, [], _, a, rep, h1, _ => by simp at h1
  | c :: cs, g :: gs, [], a, rep, _, h2 => by simp at h2
  | [], [], q :: qs, a, rep, _, h2 => by simp at h2
  | c :: cs, g :: gs, q :: qs, a, rep, h1, h2 => by
    rw [scoreFold, scoreQuestion_eq]
    rw [scoreFold_score pol cs gs qs _ _ (by simpa using h1) (by simpa using h2)]
    rw [List.zip_cons_cons, countCorrectP_cons, countMissingP_cons, countIncorrectP_cons]
    by_cases hg : g = '-'
    · simp only [questionKind, hg, if_pos rfl, if_true, pointsFor]
      simp
      ring
    · by_cases hc : c = g
      · simp only [questionKind, if_neg hg, hc, if_pos rfl, pointsFor]
        simp [hg]
        ring
      · simp only [questionKind, if_neg hg, if_neg hc, pointsFor]
        simp [hg, hc]
        ring

/-- The per-category contribution of one zipped row is exactly the three
spec-level per-category counts over its triples. -/
theorem contribTriple_eq_catCounts :
    ∀ (cs gs : List Char) (qs : List Cell) (cat : String),
      contribTriple cs gs qs cat =
        ⟨catCountCorrect (triplesOf cs gs qs) cat,
         catCountMissing (triplesOf cs gs qs) cat,
         catCountIncorrect (triplesOf cs gs qs) cat⟩
  | [], gs, qs, cat => by
    cases gs <;> cases qs <;>
      simp [contribTriple, triplesOf, catCountCorrect, catCountMissing,
        catCountIncorrect, Tally.zero]
  | c :: cs, [], qs, cat => by
    cases qs <;>
      simp [contribTriple, triplesOf, catCountCorrect, catCountMissing,
        catCountIncorrect, Tally.zero]
  | c :: cs, g :: gs, [], cat => by
    simp [contribTriple, triplesOf, catCountCorrect, catCountMissing,
      catCountIncorrect, Tally.zero]
  | c :: cs, g :: gs, q :: qs, cat => by
    rw [triplesOf]
    simp only [contribTriple]
    rw [contribTriple_eq_catCounts cs gs qs cat]
    by_cases hcat : categoryKey q = cat
    · by_cases hg : g = '-'
      · simp [catCountCorrect, catCountMissing, catCountIncorrect,
          List.filter_cons, hcat, hg, questionKind, bump]
      · by_cases hc : c = g
        · simp [catCountCorrect, catCountMissing, catCountIncorrect,
            List.filter_cons, hcat, hg, hc, questionKind, bump]
        · simp [catCountCorrect, catCountMissing, catCountIncorrect,
            List.filter_cons, hcat, hg, hc, questionKind, bump]
    · simp [catCountCorrect, catCountMissing, catCountIncorrect,
        List.filter_cons, hcat]

/-- The accumulated score does not depend on the accumulated report. -/
theorem scoreFold_fst_indep (pol : GradingPolicy) :
    ∀ (cs gs : List Char) (qs : List Cell) (a : Int) (rep rep2 : Report),
      (scoreFold pol cs gs qs (a, rep)).1 = (scoreFold pol cs gs qs (a, rep2)).1
  | [], gs, qs, a, rep, rep2 => by cases gs <;> cases qs <;> simp [scoreFold]
  | c :: cs, [], qs, a, rep, rep2 => by cases qs <;> simp [scoreFold]
  | c :: cs, g :: gs, [], a, rep, rep2 => by simp [scoreFold]
  | c :: cs, g :: gs, q :: qs, a, rep, rep2 => by
    rw [scoreFold, scoreFold, scoreQuestion_eq, scoreQuestion_eq]
    exact scoreFold_fst_indep pol cs gs qs _ _ _

/-- C1: for a graded row satisfying the equal-length invariant, each question
is scored by the missing, correct, incorrect branches, the total equals
pointsCorrect*countCorrect + pointsMissing*countMissing +
pointsIncorrect*countIncorrect with the three counts summing to the length
of the given answers, and every category tally in the resulting report grows
by exactly the per-category correct, missing and incorrect counts of the
row. -/
theorem claim1_graded_row_score (pol : GradingPolicy) (correct given : String)
    (qs : List Cell) (rep : Report)
    (h1 : correct.length = given.length) (h2 : qs.length = given.length) :
    (calculateStudentScore pol (Cell.str correct) given qs rep =
      .ok (pol.pointsCorrect * countCorrectP (correct.data.zip given.data)
        + pol.pointsMissing * countMissingP (correct.data.zip given.data)
        + pol.pointsIncorrect * countIncorrectP (correct.data.zip given.data),
        (scoreFold pol correct.data given.data qs (0, rep)).2))
    ∧ (countCorrectP (correct.data.zip given.data)
        + countMissingP (correct.data.zip given.data)
        + countIncorrectP (correct.data.zip given.data) = given.length)
    ∧ (∀ cat, lookupTallyD ((scoreFold pol correct.data given.data qs (0, rep)).2) cat =
        ⟨(lookupTallyD rep cat).corrette
            + catCountCorrect (triplesOf correct.data given.data qs) cat,
          (lookupTallyD rep cat).nonDate
            + catCountMissing (triplesOf correct.data given.data qs) cat,
          (lookupTallyD rep cat).errate
            + catCountIncorrect (triplesOf correct.data given.data qs) cat⟩) := by
  have hd1 : correct.data.length = given.data.length := h1
  have hd2 : qs.length = given.data.length := h2
  refine ⟨?_, ?_, ?_⟩
  · have hs := scoreFold_score pol correct.data given.data qs 0 rep hd1 hd2
    have hfst : (scoreFold pol correct.data given.data qs (0, rep)).1 =
        pol.pointsCorrect * countCorrectP (correct.data.zip given.data)
          + pol.pointsMissing * countMissingP (correct.data.zip given.data)
          + pol.pointsIncorrect * countIncorrectP (correct.data.zip given.data) := by
      rw [hs]; ring
    have hpair : scoreFold pol correct.data given.data qs (0, rep) =
        (pol.pointsCorrect * countCorrectP (correct.data.zip given.data)
          + pol.pointsMissing * countMissingP (correct.data.zip given.data)
          + pol.pointsIncorrect * countIncorrectP (correct.data.zip given.data),
         (scoreFold pol correct.data given.data qs (0, rep)).2) :=
      Prod.ext_iff.mpr ⟨hfst, rfl⟩
    rw [calculateStudentScore, hpair]
  · rw [countsP_sum, List.length_zip, hd1, Nat.min_self]
    rfl
  · intro cat
    rw [lookupTallyD_scoreFold, contribTriple_eq_catCounts]
    rfl

/-- The per-question category labels of the C1 witness, Scenario C. -/
def c1labels : List Cell :=
  [Cell.str "alg00", Cell.str "alg01", Cell.str "geo00", Cell.str "geo01"]

/-- Witness for C1: Scenario C, correct ABCD against given A-CX under points
4, 1, 0 gives score 9, with the tallies one correct and one missing for alg
(questions 0 and 1) and one correct and one incorrect for geo (questions 2
and 3), in question order. -/
theorem claim1_witness :
    ("ABCD".length = "A-CX".length) ∧
    (c1labels.length = "A-CX".length) ∧
    (calculateStudentScore ⟨4, 1, 0⟩ (Cell.str "ABCD") "A-CX" c1labels [] =
      .ok (9, [("alg", ⟨1, 1, 0⟩), ("geo", ⟨1, 0, 1⟩)])) ∧
    (lookupTallyD [("alg", ⟨1, 1, 0⟩), ("geo", ⟨1, 0, 1⟩)] "alg" = ⟨1, 1, 0⟩) ∧
    (lookupTallyD [("alg", ⟨1, 1, 0⟩), ("geo", ⟨1, 0, 1⟩)] "geo" = ⟨1, 0, 1⟩) :=
  ⟨by decide, by decide,
   by
    have h := claim1_graded_row_score ⟨4, 1, 0⟩ "ABCD" "A-CX" c1labels []
      (by decide) (by decide)
    rw [h.1]
    rfl,
   by decide, by decide⟩

/-- A short row, or a row whose given answers field is not textual, gets a
blank score and leaves the report untouched, while the rest of the batch is
still processed. -/
theorem gradeRows_cons_blank (pol : GradingPolicy) (r : List Cell)
    (rs : List (List Cell)) (rep : Report)
    (h : r.length < MIN_COLUMNS_REQUIRED ∨ (rowGet r (r.length - 2)).isStr = false) :
    gradeRows pol (r :: rs) rep =
      (gradeRows pol rs rep).map (fun p => (ScoreCell.blank :: p.1, p.2)) := by
  by_cases hlen : r.length < MIN_COLUMNS_REQUIRED
  · rw [gradeRows, if_pos hlen]
  · have hns : (rowGet r (r.length - 2)).isStr = false := by
      rcases h with h | h
      · exact absurd h hlen
      · exact h
    rw [gradeRows, if_neg hlen]
    cases hcell : rowGet r (r.length - 2) with
    | str s => rw [hcell] at hns; simp [Cell.isStr] at hns
    | num n => rfl
    | nan => rfl

/-- C3: a results row with fewer than 6 columns, or whose given answers field
is not textual, is left with a blank score, contributes to no tally, and the
remaining rows of the batch are still processed; such a row never aborts the
batch. -/
theorem claim3_unscored_row_degraded (pol : GradingPolicy) (r : List Cell)
    (rs : List (List Cell)) (rep : Report)
    (h : r.length < MIN_COLUMNS_REQUIRED ∨ (rowGet r (r.length - 2)).isStr = false) :
    gradeRows pol (r :: rs) rep =
      (gradeRows pol rs rep).map (fun p => (ScoreCell.blank :: p.1, p.2)) :=
  gradeRows_cons_blank pol r rs rep h

/-- Witness for C3: a row with a numeric given answers field is skipped and
the next valid row still gets graded. -/
theorem claim3_witness :
    (([Cell.num 1, Cell.num 2, Cell.num 3, Cell.str "alg00", Cell.num 9,
        Cell.str "id"] : List Cell).length < MIN_COLUMNS_REQUIRED ∨
      (rowGet [Cell.num 1, Cell.num 2, Cell.num 3, Cell.str "alg00", Cell.num 9,
        Cell.str "id"] ([Cell.num 1, Cell.num 2, Cell.num 3, Cell.str "alg00",
        Cell.num 9, Cell.str "id"].length - 2)).isStr = false) ∧
    gradeRows ⟨4, 1, 0⟩
      ([Cell.num 1, Cell.num 2, Cell.num 3, Cell.str "alg00", Cell.num 9, Cell.str "id"] ::
        [[Cell.num 1, Cell.num 2, Cell.num 3, Cell.str "alg07", Cell.str "B",
          Cell.str "id1"]]) [] =
      (gradeRows ⟨4, 1, 0⟩ [[Cell.num 1, Cell.num 2, Cell.num 3, Cell.str "alg07",
        Cell.str "B", Cell.str "id1"]] []).map
        (fun p => (ScoreCell.blank :: p.1, p.2)) :=
  ⟨by decide,
   claim3_unscored_row_degraded ⟨4, 1, 0⟩ _ _ [] (by decide)⟩

/-- The scoring loop length is the minimum of the three input lengths. -/
theorem triplesLen_eq : ∀ (cs gs : List Char) (qs : List Cell),
    triplesLen cs gs qs = min (min cs.length gs.length) qs.length
  | [], gs, qs => by simp [triplesLen]
  | c :: cs, [], qs => by simp [triplesLen]
  | c :: cs, g :: gs, [] => by simp [triplesLen]
  | c :: cs, g :: gs, q :: qs => by
    rw [triplesLen, triplesLen_eq cs gs qs]
    simp only [List.length_cons, Nat.succ_min_succ]

/-- Each dict increment raises the report grand total by one. -/
theorem reportTotal_addTally (rep : Report) (c : String) (k : Kind) :
    reportTotal (addTally rep c k) = reportTotal rep + 1 := by
  induction rep with
  | nil => cases k <;> simp [addTally, reportTotal, bump, Tally.zero]
  | cons hd tl ih =>
    obtain ⟨c0, t⟩ := hd
    by_cases h : c0 = c
    · cases k <;> cases t <;>
        simp [addTally, h, reportTotal, bump] <;> omega
    · simp only [addTally, if_neg h]
      simp only [reportTotal, List.map_cons, List.sum_cons] at ih ⊢
      omega

/-- The scoring loop adds exactly one increment per zipped triple. -/
theorem reportTotal_scoreFold (pol : GradingPolicy) :
    ∀ (cs gs : List Char) (qs : List Cell) (a : Int) (rep : Report),
      reportTotal ((scoreFold pol cs gs qs (a, rep)).2) =
        reportTotal rep + triplesLen cs gs qs
  | [], gs, qs, a, rep => by cases gs <;> cases qs <;> simp [scoreFold, triplesLen]
  | c :: cs, [], qs, a, rep => by cases qs <;> simp [scoreFold, triplesLen]
  | c :: cs, g :: gs, [], a, rep => by simp [scoreFold, triplesLen]
  | c :: cs, g :: gs, q :: qs, a, rep => by
    rw [scoreFold, scoreQuestion_eq]
    rw [show ((a, rep).1 + pointsFor pol (questionKind c g),
        addTally (a, rep).2 (categoryKey q) (questionKind c g)) =
      (a + pointsFor pol (questionKind c g),
        addTally rep (categoryKey q) (questionKind c g)) from rfl]
    rw [reportTotal_scoreFold pol cs gs qs _ _, reportTotal_addTally, triplesLen]
    omega

/-- The scoring loop only ever reads the common prefix of its inputs. -/
theorem scoreFold_take (pol : GradingPolicy) :
    ∀ (cs gs : List Char) (qs : List Cell) (acc : Int × Report),
      scoreFold pol cs gs qs acc =
        scoreFold pol (cs.take (triplesLen cs gs qs))
          (gs.take (triplesLen cs gs qs)) (qs.take (triplesLen cs gs qs)) acc
  | [], gs, qs, acc => by simp [triplesLen, scoreFold]
  | c :: cs, [], qs, acc => by simp [triplesLen, scoreFold]
  | c :: cs, g :: gs, [], acc => by simp [triplesLen, scoreFold]
  | c :: cs, g :: gs, q :: qs, acc => by
    rw [triplesLen]
    simp only [List.take_succ_cons]
    rw [scoreFold, scoreFold]
    exact scoreFold_take pol cs gs qs (scoreQuestion pol c g q acc)

/-- C9: with mismatched lengths the scorer silently processes exactly
min(correct, given, labels) questions: the result only depends on the
truncated inputs, no error is raised, and exactly that many tally
increments happen. -/
theorem claim9_min_processed (pol : GradingPolicy) (correct given : String)
    (qs : List Cell) (rep : Report) :
    calculateStudentScore pol (Cell.str correct) given qs rep =
      .ok (scoreFold pol
        (correct.data.take (min (min correct.length given.length) qs.length))
        (given.data.take (min (min correct.length given.length) qs.length))
        (qs.take (min (min correct.length given.length) qs.length)) (0, rep))
    ∧ reportTotal ((scoreFold pol correct.data given.data qs (0, rep)).2) =
        reportTotal rep + min (min correct.length given.length) qs.length := by
  have hm : triplesLen correct.data given.data qs =
      min (min correct.length given.length) qs.length := by
    rw [triplesLen_eq]; rfl
  constructor
  · rw [calculateStudentScore, ← hm, ← scoreFold_take]
  · rw [reportTotal_scoreFold, hm]

/-- C6: the category key used for tallying is the label with its trailing 2
characters stripped, a label shorter than 2 characters is used verbatim; a
single correctly answered question labeled s lands in exactly that
category. -/
theorem claim6_category_key (pol : GradingPolicy) (s : String) :
    categoryKey (Cell.str s) = specCategoryKey s
    ∧ calculateStudentScore pol (Cell.str "A") "A" [Cell.str s] [] =
        .ok (pol.pointsCorrect, [(specCategoryKey s, ⟨1, 0, 0⟩)]) := by
  have hk : categoryKey (Cell.str s) = specCategoryKey s := by
    simp only [categoryKey, Cell.toStr, specCategoryKey]
    by_cases h : s.length < 2
    · rw [if_neg (by omega), if_pos h]
    · rw [if_pos (by omega), if_neg h]
  refine ⟨hk, ?_⟩
  rw [calculateStudentScore]
  show Except.ok ((0 : Int) + pol.pointsCorrect,
    [(categoryKey (Cell.str s), (⟨1, 0, 0⟩ : Tally))]) = _
  rw [hk, zero_add]

/-- Counterexample for C7: a row with 6 columns, a textual given answers
field, but a numeric correct answers field raises a TypeError inside the
scorer and aborts the whole batch, so the valid second row is never
graded. -/
theorem claim7_counterexample :
    grade ⟨4, 1, 0⟩
      [[Cell.num 1, Cell.num 2, Cell.num 3, Cell.num 7, Cell.str "AB", Cell.str "id1"],
       [Cell.num 1, Cell.num 2, Cell.num 3, Cell.str "alg07", Cell.str "B", Cell.str "id2"]] =
      .error "TypeError: zip argument must support iteration" := by
  rfl

/-- C7 (amended): a batch none of whose rows has the one unguarded aborting
shape is never aborted: it succeeds with exactly one scores-column entry per
row, blank for each guarded-malformed row (short, or non-textual given
answers) and the computed score for each valid row, so the run produces
output for all valid rows. -/
theorem claim7_mixed_batch_never_aborted (pol : GradingPolicy) :
    ∀ (rows : List (List Cell)) (rep : Report),
      (∀ r ∈ rows, rowAborts r = false) →
      ∃ rp, gradeRows pol rows rep = .ok (rows.map (rowScoreCell pol), rp)
  | [], rep, _ => ⟨rep, rfl⟩
  | r :: rs, rep, h => by
    by_cases hb : r.length < MIN_COLUMNS_REQUIRED ∨ (rowGet r (r.length - 2)).isStr = false
    · obtain ⟨rp, hrec⟩ :=
        claim7_mixed_batch_never_aborted pol rs rep (fun x hx => h x (by simp [hx]))
      refine ⟨rp, ?_⟩
      rw [gradeRows_cons_blank pol r rs rep hb, hrec, List.map_cons]
      have hcell : rowScoreCell pol r = ScoreCell.blank := by
        rcases hb with hb | hb
        · rw [rowScoreCell, if_pos hb]
        · by_cases hlen : r.length < MIN_COLUMNS_REQUIRED
          · rw [rowScoreCell, if_pos hlen]
          · rw [rowScoreCell, if_neg hlen]
            cases hc2 : rowGet r (r.length - 2) with
            | str g => rw [hc2] at hb; simp [Cell.isStr] at hb
            | num n => rfl
            | nan => rfl
      rw [hcell]
      rfl
    · push_neg at hb
      obtain ⟨hlen0, hstr⟩ := hb
      have hlen : ¬ r.length < MIN_COLUMNS_REQUIRED := by omega
      have hlen6 : MIN_COLUMNS_REQUIRED ≤ r.length := by omega
      have hstr2 : (rowGet r (r.length - 2)).isStr = true := by simpa using hstr
      cases hc2 : rowGet r (r.length - 2) with
      | num n => rw [hc2] at hstr2; simp [Cell.isStr] at hstr2
      | nan => rw [hc2] at hstr2; simp [Cell.isStr] at hstr2
      | str g =>
        have hab := h r (by simp)
        rw [rowAborts, hc2] at hab
        cases hc3 : rowGet r (r.length - 3) with
        | num n =>
          rw [hc3] at hab
          simp [Cell.isStr] at hab
          omega
        | nan =>
          rw [hc3] at hab
          simp [Cell.isStr] at hab
          omega
        | str cstr =>
          obtain ⟨rp, hrec⟩ := claim7_mixed_batch_never_aborted pol rs
            ((scoreFold pol cstr.data g.data (questionsOf r) ((0 : Int), rep)).2)
            (fun x hx => h x (by simp [hx]))
          refine ⟨rp, ?_⟩
          rw [gradeRows, if_neg hlen, hc2, hc3]
          simp only [calculateStudentScore]
          rw [hrec, List.map_cons]
          have hcell : rowScoreCell pol r =
              ScoreCell.score
                ((scoreFold pol cstr.data g.data (questionsOf r) ((0 : Int), rep)).1) := by
            simp only [rowScoreCell, if_neg hlen, hc2, hc3]
            rw [scoreFold_fst_indep pol cstr.data g.data (questionsOf r) 0 [] rep]
          rw [hcell]
          rfl

/-- A valid student row for the C7 witness: one correct alg answer. -/
def c7valid1 : List Cell :=
  [Cell.num 1, Cell.num 2, Cell.num 3, Cell.str "alg00", Cell.str "A",
   Cell.str "A", Cell.str "s1"]

/-- A valid student row for the C7 witness: one missing geo answer. -/
def c7valid2 : List Cell :=
  [Cell.num 1, Cell.num 2, Cell.num 3, Cell.str "geo01", Cell.str "A",
   Cell.str "-", Cell.str "s2"]

/-- The mixed batch of the C7 witness: a short row and a numeric-given row
interleaved with two valid rows. -/
def c7batch : List (List Cell) :=
  [[Cell.num 1], c7valid1,
   [Cell.num 1, Cell.num 2, Cell.num 3, Cell.str "a", Cell.num 9, Cell.str "id"],
   c7valid2]

/-- Witness for C7: in a mixed batch the two malformed rows get blanks, the
two valid rows still get their scores, and the run succeeds. -/
theorem claim7_witness :
    (∀ r ∈ c7batch, rowAborts r = false) ∧
    (c7batch.map (rowScoreCell ⟨4, 1, 0⟩) =
      [ScoreCell.blank, ScoreCell.score 4, ScoreCell.blank, ScoreCell.score 1]) ∧
    (∃ rp, gradeRows ⟨4, 1, 0⟩ c7batch [] =
      .ok (c7batch.map (rowScoreCell ⟨4, 1, 0⟩), rp)) :=
  ⟨by decide, by decide,
   claim7_mixed_batch_never_aborted ⟨4, 1, 0⟩ c7batch [] (by decide)⟩

/-- Two tallies with equal counters are equal. -/
theorem tallyExt (a b : Tally) (h1 : a.corrette = b.corrette)
    (h2 : a.nonDate = b.nonDate) (h3 : a.errate = b.errate) : a = b := by
  cases a; cases b; simp_all

/-- A successful batch run grows each category tally by exactly the batch
contribution of its rows. -/
theorem lookupTallyD_gradeRows (pol : GradingPolicy) :
    ∀ (rows : List (List Cell)) (rep : Report) (ss : List ScoreCell) (rp : Report),
      gradeRows pol rows rep = .ok (ss, rp) →
      ∀ cat, lookupTallyD rp cat = tallyAdd (lookupTallyD rep cat) (batchContrib rows cat)
  | [], rep, ss, rp, h, cat => by
    rw [gradeRows] at h
    simp only [Except.ok.injEq, Prod.mk.injEq] at h
    obtain ⟨h1, h2⟩ := h
    subst h2
    simp [batchContrib, tallyAdd_zero]
  | r :: rs, rep, ss, rp, h, cat => by
    by_cases hb : r.length < MIN_COLUMNS_REQUIRED ∨ (rowGet r (r.length - 2)).isStr = false
    · rw [gradeRows_cons_blank pol r rs rep hb] at h
      cases hrec : gradeRows pol rs rep with
      | error e => rw [hrec] at h; simp [Except.map] at h
      | ok p =>
        rw [hrec] at h
        simp only [Except.map, Except.ok.injEq, Prod.mk.injEq] at h
        obtain ⟨h1, h2⟩ := h
        subst h2
        rw [lookupTallyD_gradeRows pol rs rep p.1 p.2 (by rw [hrec]) cat]
        rw [batchContrib]
        have hz : rowContrib r cat = Tally.zero := by
          rcases hb with hb | hb
          · rw [rowContrib, if_pos hb]
          · by_cases hlen : r.length < MIN_COLUMNS_REQUIRED
            · rw [rowContrib, if_pos hlen]
            · rw [rowContrib, if_neg hlen]
              cases hcell : rowGet r (r.length - 2) with
              | str g => rw [hcell] at hb; simp [Cell.isStr] at hb
              | num n => rfl
              | nan => rfl
        rw [hz, zero_tallyAdd]
    · push_neg at hb
      obtain ⟨hlen0, hstr⟩ := hb
      have hlen : ¬ r.length < MIN_COLUMNS_REQUIRED := by omega
      have hstr2 : (rowGet r (r.length - 2)).isStr = true := by
        simpa using hstr
      cases hcell : rowGet r (r.length - 2) with
      | num n => rw [hcell] at hstr2; simp [Cell.isStr] at hstr2
      | nan => rw [hcell] at hstr2; simp [Cell.isStr] at hstr2
      | str g =>
        rw [gradeRows, if_neg hlen] at h
        rw [hcell] at h
        cases hcorr : rowGet r (r.length - 3) with
        | num n =>
          rw [hcorr] at h
          simp [calculateStudentScore] at h
        | nan =>
          rw [hcorr] at h
          simp [calculateStudentScore] at h
        | str cstr =>
          rw [hcorr] at h
          simp only [calculateStudentScore] at h
          cases hrec : gradeRows pol rs
              ((scoreFold pol cstr.data g.data (questionsOf r) ((0 : Int), rep)).2) with
          | error e => rw [hrec] at h; simp [Except.map] at h
          | ok p =>
            rw [hrec] at h
            simp only [Except.map, Except.ok.injEq, Prod.mk.injEq] at h
            obtain ⟨h1, h2⟩ := h
            subst h2
            rw [lookupTallyD_gradeRows pol rs _ p.1 p.2 (by rw [hrec]) cat]
            rw [lookupTallyD_scoreFold]
            rw [batchContrib]
            have hrc : rowContrib r cat =
                contribTriple cstr.data g.data (questionsOf r) cat := by
              simp only [rowContrib, if_neg hlen, hcell, hcorr]
            rw [hrc, tallyAdd_assoc]

theorem batchContrib_corrette (rows : List (List Cell)) (cat : String) :
    (batchContrib rows cat).corrette =
      (rows.map (fun r => (rowContrib r cat).corrette)).sum := by
  induction rows with
  | nil => simp [batchContrib, Tally.zero]
  | cons r rs ih => simp [batchContrib, tallyAdd, ih]

theorem batchContrib_nonDate (rows : List (List Cell)) (cat : String) :
    (batchContrib rows cat).nonDate =
      (rows.map (fun r => (rowContrib r cat).nonDate)).sum := by
  induction rows with
  | nil => simp [batchContrib, Tally.zero]
  | cons r rs ih => simp [batchContrib, tallyAdd, ih]

theorem batchContrib_errate (rows : List (List Cell)) (cat : String) :
    (batchContrib rows cat).errate =
      (rows.map (fun r => (rowContrib r cat).errate)).sum := by
  induction rows with
  | nil => simp [batchContrib, Tally.zero]
  | cons r rs ih => simp [batchContrib, tallyAdd, ih]

/-- Permuting the rows permutes the per-row contributions, so the batch
contribution is unchanged. -/
theorem batchContrib_perm (rows1 rows2 : List (List Cell)) (cat : String)
    (hp : rows1.Perm rows2) :
    batchContrib rows1 cat = batchContrib rows2 cat := by
  apply tallyExt
  · rw [batchContrib_corrette, batchContrib_corrette]
    exact (hp.map (fun r => (rowContrib r cat).corrette)).sum_eq
  · rw [batchContrib_nonDate, batchContrib_nonDate]
    exact (hp.map (fun r => (rowContrib r cat).nonDate)).sum_eq
  · rw [batchContrib_errate, batchContrib_errate]
    exact (hp.map (fun r => (rowContrib r cat).errate)).sum_eq

/-- C8: grading any permutation of the same rows with the same policy ends
with the same final per-category tally counts. -/
theorem claim8_tally_perm_invariant (pol : GradingPolicy)
    (rows1 rows2 : List (List Cell)) (s1 s2 : List ScoreCell) (rep1 rep2 : Report)
    (hp : rows1.Perm rows2)
    (h1 : grade pol rows1 = .ok (s1, rep1))
    (h2 : grade pol rows2 = .ok (s2, rep2)) :
    ∀ cat, lookupTallyD rep1 cat = lookupTallyD rep2 cat := by
  intro cat
  have g1 : gradeRows pol rows1 [] = .ok (s1, rep1) := by
    rw [grade] at h1
    cases hE : rows1.isEmpty with
    | true => rw [hE] at h1; simp at h1
    | false => rw [hE] at h1; simpa using h1
  have g2 : gradeRows pol rows2 [] = .ok (s2, rep2) := by
    rw [grade] at h2
    cases hE : rows2.isEmpty with
    | true => rw [hE] at h2; simp at h2
    | false => rw [hE] at h2; simpa using h2
  rw [lookupTallyD_gradeRows pol rows1 [] s1 rep1 g1 cat]
  rw [lookupTallyD_gradeRows pol rows2 [] s2 rep2 g2 cat]
  rw [batchContrib_perm rows1 rows2 cat hp]

/-- Student row used in the C8 witness: one correct answer in category alg. -/
def c8rowA : List Cell :=
  [Cell.num 1, Cell.num 2, Cell.num 3, Cell.str "alg00", Cell.str "A",
   Cell.str "A", Cell.str "s1"]

/-- Student row used in the C8 witness: one missing answer in category geo. -/
def c8rowB : List Cell :=
  [Cell.num 1, Cell.num 2, Cell.num 3, Cell.str "geo01", Cell.str "A",
   Cell.str "-", Cell.str "s2"]

/-- Witness for C8: swapping two students leaves the per-category counts of
the final report unchanged, even though the report insertion order
differs. -/
theorem claim8_witness :
    (([c8rowA, c8rowB] : List (List Cell)).Perm [c8rowB, c8rowA]) ∧
    grade ⟨4, 1, 0⟩ [c8rowA, c8rowB] =
      .ok ([ScoreCell.score 4, ScoreCell.score 1],
        [("alg", ⟨1, 0, 0⟩), ("geo", ⟨0, 1, 0⟩)]) ∧
    grade ⟨4, 1, 0⟩ [c8rowB, c8rowA] =
      .ok ([ScoreCell.score 1, ScoreCell.score 4],
        [("geo", ⟨0, 1, 0⟩), ("alg", ⟨1, 0, 0⟩)]) ∧
    lookupTallyD [("alg", ⟨1, 0, 0⟩), ("geo", ⟨0, 1, 0⟩)] "alg" =
      lookupTallyD [("geo", ⟨0, 1, 0⟩), ("alg", ⟨1, 0, 0⟩)] "alg" :=
  ⟨List.Perm.swap c8rowB c8rowA [], by rfl, by rfl,
   claim8_tally_perm_invariant ⟨4, 1, 0⟩ [c8rowA, c8rowB] [c8rowB, c8rowA]
     [ScoreCell.score 4, ScoreCell.score 1] [ScoreCell.score 1, ScoreCell.score 4]
     [("alg", ⟨1, 0, 0⟩), ("geo", ⟨0, 1, 0⟩)] [("geo", ⟨0, 1, 0⟩), ("alg", ⟨1, 0, 0⟩)]
     (List.Perm.swap c8rowB c8rowA []) (by rfl) (by rfl) "alg"⟩

/-! Generator claims. -/

/-- String concatenation is associative. -/
theorem strAppend_assoc (a b c : String) : a ++ b ++ c = a ++ (b ++ c) := by
  cases a with | mk la =>
  cases b with | mk lb =>
  cases c with | mk lc =>
  show String.mk (la ++ lb ++ lc) = String.mk (la ++ (lb ++ lc))
  rw [List.append_assoc]

/-- C5: a block with prompt p and exactly 4 responses serializes to
p, r1, r2, r3, r4 separated by newline-dot-newline delimiters with a
trailing delimiter, in a file named category-index with no extension. -/
theorem claim5_serialized_block (p r1 r2 r3 r4 cat : String) (idx : Nat) :
    serializeQuestion ⟨p, [r1, r2, r3, r4]⟩ =
      p ++ "\n.\n" ++ r1 ++ "\n.\n" ++ r2 ++ "\n.\n" ++ r3 ++ "\n.\n" ++ r4 ++ "\n.\n"
    ∧ questionFileName cat idx = cat ++ "-" ++ toString idx := by
  constructor
  · simp [serializeQuestion, joinSep, strAppend_assoc]
  · rfl

/-- Counterexample for C4: the description the code builds differs from the
exact fixed grammar because of a leading blank line. -/
theorem claim4_counterexample :
    generateMuchDescription ⟨42, 10, 1, 30⟩ ["alg"] ≠
      specDescriptionScript ⟨42, 10, 1, 30⟩ ["alg"] := by
  decide

/-- C4 (amended): the description built for the randomizer is exactly a
leading newline followed by the fixed-grammar script: the directory
directive, the seed, the serial start, one usage line per category in
enumeration order, and the create directive, with nothing else. -/
theorem claim4_description_script (cfg : ExamConfig) (sheets : List String) :
    generateMuchDescription cfg sheets = "\n" ++ specDescriptionScript cfg sheets := by
  simp [generateMuchDescription, specDescriptionScript, strAppend_assoc]
  rw [show ("\ndirectory \".\";\nseed " : String) =
    "\n" ++ "directory \".\";\nseed " from rfl]
  rw [strAppend_assoc]

/-- The three per-sheet branches collapse to one filterMap over the block
indices below floor(rowCount/5). -/
theorem parseSheet_eq (e : List (List Cell)) :
    parseSheet e =
      (List.range (e.length / QUESTIONS_PER_BLOCK)).filterMap (blockAt e) := by
  rw [parseSheet]
  by_cases h0 : e.length = 0
  · rw [if_pos h0, h0]
    rfl
  · rw [if_neg h0]
    by_cases h5 : e.length = QUESTIONS_PER_BLOCK
    · rw [if_pos h5, h5]
      cases hb : blockAt e 0 <;>
        simp [hb, QUESTIONS_PER_BLOCK, List.range_succ, List.filterMap_cons]
    · rw [if_neg h5]

/-- A block whose prompt cell is present is written. -/
theorem writeQuestionFile_isSome (e : List (List Cell)) (i : Nat)
    (h : promptOk e i = true) : (writeQuestionFile e i).isSome := by
  rw [promptOk] at h
  rw [writeQuestionFile]
  cases hg : e[i]? with
  | none => rw [hg] at h; simp at h
  | some row =>
    rw [hg] at h
    have hlt : i < e.length := by
      by_contra hc
      push_neg at hc
      rw [List.getElem?_eq_none hc] at hg
      cases hg
    rw [if_neg (by omega)]
    cases row with
    | nil => simp at h
    | cons c rest =>
      simp only [Bool.not_eq_true'] at h
      simp [h]

/-- Helper: a filterMap keeps the whole list when the function is total on
it. -/
theorem length_filterMap_eq_of_isSome {α β : Type} (l : List α) (f : α → Option β)
    (h : ∀ a ∈ l, (f a).isSome) : (l.filterMap f).length = l.length := by
  induction l with
  | nil => rfl
  | cons a l ih =>
    have ha := h a (by simp)
    cases hf : f a with
    | none => rw [hf] at ha; simp at ha
    | some b =>
      simp only [List.filterMap_cons, hf, List.length_cons]
      rw [ih (fun x hx => h x (by simp [hx]))]

/-- C2 (amended): a sheet with rowCount rows yields at most
floor(rowCount/5) blocks, every block index is below that bound, and when
the prompt cell of every chunk is present the count is exactly
floor(rowCount/5); remainder rows never contribute and parsing never
fails. -/
theorem claim2_blocks_floor (e : List (List Cell)) :
    ((parseSheet e).length ≤ e.length / QUESTIONS_PER_BLOCK
      ∧ ∀ p ∈ parseSheet e, p.1 < e.length / QUESTIONS_PER_BLOCK)
    ∧ ((∀ i, i < e.length / QUESTIONS_PER_BLOCK →
          promptOk e (i * QUESTIONS_PER_BLOCK) = true) →
        (parseSheet e).length = e.length / QUESTIONS_PER_BLOCK) := by
  refine ⟨⟨?_, ?_⟩, ?_⟩
  · rw [parseSheet_eq]
    calc ((List.range (e.length / QUESTIONS_PER_BLOCK)).filterMap (blockAt e)).length
        ≤ (List.range (e.length / QUESTIONS_PER_BLOCK)).length :=
          List.length_filterMap_le _ _
      _ = e.length / QUESTIONS_PER_BLOCK := List.length_range _
  · intro p hp
    rw [parseSheet_eq] at hp
    obtain ⟨i, hi, hfi⟩ := List.mem_filterMap.mp hp
    rw [blockAt] at hfi
    obtain ⟨f0, hw, hmk⟩ := Option.map_eq_some'.mp hfi
    rw [← hmk]
    exact List.mem_range.mp hi
  · intro hpr
    rw [parseSheet_eq]
    rw [length_filterMap_eq_of_isSome _ _ ?_, List.length_range]
    intro i hi
    have hs := writeQuestionFile_isSome e (i * QUESTIONS_PER_BLOCK)
      (hpr i (List.mem_range.mp hi))
    rw [blockAt]
    cases hw : writeQuestionFile e (i * QUESTIONS_PER_BLOCK) with
    | none => rw [hw] at hs; simp at hs
    | some f => rfl

/-- Counterexample for C2: a group of exactly 5 rows whose prompt cell is
missing (NaN) yields zero blocks, not floor(5/5) = 1. -/
theorem claim2_counterexample :
    parseSheet [[Cell.nan], [Cell.str "a"], [Cell.str "b"], [Cell.str "c"],
      [Cell.str "d"]] = []
    ∧ ([[Cell.nan], [Cell.str "a"], [Cell.str "b"], [Cell.str "c"],
        [Cell.str "d"]] : List (List Cell)).length / QUESTIONS_PER_BLOCK = 1 := by
  exact ⟨rfl, rfl⟩

/-- The 7-row sheet of the C2 witness, all prompts present. -/
def c2sheet7 : List (List Cell) :=
  [[Cell.str "p"], [Cell.str "a"], [Cell.str "b"], [Cell.str "c"], [Cell.str "d"],
   [Cell.str "x"], [Cell.str "y"]]

/-- Witness for C2: a 7-row sheet with present prompts yields exactly one
block. -/
theorem claim2_witness :
    (∀ i, i < c2sheet7.length / QUESTIONS_PER_BLOCK →
      promptOk c2sheet7 (i * QUESTIONS_PER_BLOCK) = true) ∧
    (parseSheet c2sheet7).length = c2sheet7.length / QUESTIONS_PER_BLOCK :=
  ⟨by decide, (claim2_blocks_floor c2sheet7).2 (by decide)⟩

/-- C10: the parser returns exactly the full sheet-name list, zero-row
sheets included, and the description holds one usage directive per sheet in
that order. -/
theorem claim10_all_sheets_kept (bank : List (String × List (List Cell)))
    (cfg : ExamConfig) (h : bank ≠ []) :
    (∃ files, parseQuestionsFromExcel bank = .ok (bank.map Prod.fst, files))
    ∧ usageLines cfg (bank.map Prod.fst) = (bank.map Prod.fst).map (usageLine cfg)
    ∧ (usageLines cfg (bank.map Prod.fst)).length = bank.length := by
  have hne : ¬ (bank.isEmpty = true) := by simp [List.isEmpty_iff, h]
  refine ⟨?_, rfl, by simp [usageLines]⟩
  refine ⟨bank.flatMap
    (fun sn => (parseSheet sn.2).map (fun p => (questionFileName sn.1 p.1, p.2))), ?_⟩
  rw [parseQuestionsFromExcel, if_neg hne]

/-- The bank of the C10 witness: a zero-row sheet followed by a 5-row
sheet. -/
def c10bank : List (String × List (List Cell)) :=
  [("alg", []),
   ("geo", [[Cell.str "p"], [Cell.str "a"], [Cell.str "b"], [Cell.str "c"],
     [Cell.str "d"]])]

/-- Witness for C10: the zero-row sheet alg still appears in the category
list and gets a usage directive. -/
theorem claim10_witness :
    (c10bank ≠ []) ∧
    ((∃ files, parseQuestionsFromExcel c10bank = .ok (c10bank.map Prod.fst, files))
      ∧ usageLines ⟨42, 10, 1, 30⟩ (c10bank.map Prod.fst) =
          (c10bank.map Prod.fst).map (usageLine ⟨42, 10, 1, 30⟩)
      ∧ (usageLines ⟨42, 10, 1, 30⟩ (c10bank.map Prod.fst)).length = c10bank.length) :=
  ⟨by decide, claim10_all_sheets_kept c10bank ⟨42, 10, 1, 30⟩ (by decide)⟩

end Mucher
